import Mathlib

/-!
Shallow embedding of the GitAgent repository core
(`src/git_agent_langgraph.py`, `src/utils/git_commands.py`).

Python strings are modelled as `List Char` (`PyStr`); Python library
operations that the code uses (`str.strip`, `str.split`, `str.lower`,
`in`-substring tests, `startswith`) are defined below, faithful to
Python semantics on the character set the program handles.
-/

namespace GitAgent

/-- Python strings, modelled as lists of characters. -/
abbrev PyStr := List Char

/-- The whitespace characters stripped by Python `str.strip()` /
split by `str.split()` (ASCII subset). -/
def isPySpace (c : Char) : Bool :=
  c = ' ' || c = '\t' || c = '\n' || c = '\x0d' || c = '\x0b' || c = '\x0c'

/-- Python `s.strip()`: remove leading and trailing whitespace. -/
def pyStrip (s : PyStr) : PyStr :=
  List.rdropWhile isPySpace (s.dropWhile isPySpace)

/-- Python `s.lower()` (ASCII). -/
def pyLower (s : PyStr) : PyStr := s.map Char.toLower

/-- Python `needle in hay` for strings: substring containment. -/
def pyIn (needle hay : PyStr) : Bool := decide (needle <:+: hay)

/-- Python `s.startswith(p)`. -/
def pyStartsWith (s p : PyStr) : Bool := p.isPrefixOf s

/-- Python `s.split('\n')`: split at every newline, keeping empty pieces. -/
def pySplitNl : PyStr → List PyStr
  | [] => [[]]
  | c :: rest =>
    let r := pySplitNl rest
    if c = '\n' then [] :: r
    else
      match r with
      | [] => [[c]]
      | h :: t => (c :: h) :: t

/-- Python `s.split()` (no argument): split on whitespace runs,
dropping empty pieces. -/
def pySplitWs : PyStr → List PyStr
  | [] => []
  | c :: rest =>
    let r := pySplitWs rest
    if isPySpace c then r
    else
      match rest with
      | [] => [[c]]
      | d :: _ =>
        if isPySpace d then [c] :: r
        else
          match r with
          | [] => [[c]]
          | h :: t => (c :: h) :: t

/-! ## Current-branch extraction (`_extract_current_branch`, lines 127-136)

```python
def _extract_current_branch(self, branches_output: str) -> str:
    lines = branches_output.split('\n')
    for line in lines:
        if line.strip().startswith('*'):
            current_branch = line.strip()[1:].strip()
            if current_branch.startswith('('):
                return "HEAD (detached)"
            return current_branch
    return "unknown"
```
-/

/-- The `for line in lines` loop body of `_extract_current_branch`. -/
def extractFromLines : List PyStr → PyStr
  | [] => "unknown".toList
  | line :: rest =>
    let s := pyStrip line
    if pyStartsWith s ['*'] then
      let current_branch := pyStrip (s.drop 1)
      if pyStartsWith current_branch ['('] then "HEAD (detached)".toList
      else current_branch
    else extractFromLines rest

/-- `_extract_current_branch`: extract the current branch name from
`git branch` output. -/
def extract_current_branch (branches_output : PyStr) : PyStr :=
  extractFromLines (pySplitNl branches_output)

/-! ### Facts about the Python string primitives -/

lemma dropWhile_eq_self_of_prefix {p : Char → Bool} {l l' : PyStr}
    (hl : l.dropWhile p = l) (hpre : l' <+: l) : l'.dropWhile p = l' := by
  rw [List.dropWhile_eq_self_iff] at hl ⊢
  intro h
  have hlen : 0 < l.length := lt_of_lt_of_le h hpre.length_le
  have hg : l'.get ⟨0, h⟩ = l.get ⟨0, hlen⟩ := by
    simp only [List.get_eq_getElem]
    exact hpre.getElem h
  rw [hg]
  exact hl hlen

lemma pyStrip_sublist (s : PyStr) : List.Sublist (pyStrip s) s :=
  ((List.rdropWhile_prefix _ _).sublist).trans (List.dropWhile_suffix _).sublist

lemma pyStrip_dropWhile (s : PyStr) :
    (pyStrip s).dropWhile isPySpace = pyStrip s :=
  dropWhile_eq_self_of_prefix (List.dropWhile_idempotent _ _)
    (List.rdropWhile_prefix _ _)

lemma pyStrip_pyStrip (s : PyStr) : pyStrip (pyStrip s) = pyStrip s := by
  show List.rdropWhile isPySpace ((pyStrip s).dropWhile isPySpace) = pyStrip s
  rw [pyStrip_dropWhile]
  show List.rdropWhile isPySpace
      (List.rdropWhile isPySpace ((s.dropWhile isPySpace))) = _
  exact List.rdropWhile_idempotent _ _

/-- A string equal to its own strip has no leading whitespace. -/
lemma clean_dropWhile {r : PyStr} (h : pyStrip r = r) :
    r.dropWhile isPySpace = r := by
  have hpre : r <+: r.dropWhile isPySpace := by
    conv_lhs => rw [← h]
    exact List.rdropWhile_prefix _ _
  have hsuf : r.dropWhile isPySpace <:+ r := List.dropWhile_suffix _
  exact (hpre.eq_of_length (le_antisymm hpre.length_le hsuf.length_le)).symm

/-- A string equal to its own strip has no trailing whitespace. -/
lemma clean_rdropWhile {r : PyStr} (h : pyStrip r = r) :
    List.rdropWhile isPySpace r = r := by
  conv_lhs => rw [← clean_dropWhile h]
  exact h

lemma clean_head_not_space {a : Char} {t : PyStr}
    (h : (a :: t).dropWhile isPySpace = a :: t) : isPySpace a = false := by
  by_contra hb
  rw [Bool.not_eq_false] at hb
  rw [List.dropWhile_cons_of_pos hb] at h
  have hlen := congrArg List.length h
  have hle := (List.dropWhile_suffix (l := t) isPySpace).length_le
  simp only [List.length_cons] at hlen
  omega

lemma pySplitNl_ne_nil : ∀ s : PyStr, pySplitNl s ≠ []
  | [] => by simp [pySplitNl]
  | c :: rest => by
    simp only [pySplitNl]
    cases hr : pySplitNl rest with
    | nil => exact absurd hr (pySplitNl_ne_nil rest)
    | cons h t =>
      by_cases hc : c = '\n' <;> simp [hc]

lemma pySplitNl_no_nl : ∀ s : PyStr, ∀ ln ∈ pySplitNl s, ('\n' : Char) ∉ ln
  | [], ln, hln => by
    simp only [pySplitNl, List.mem_singleton] at hln
    simp [hln]
  | c :: rest, ln, hln => by
    simp only [pySplitNl] at hln
    by_cases hc : c = '\n'
    · rw [if_pos hc] at hln
      rcases List.mem_cons.mp hln with h | h
      · simp [h]
      · exact pySplitNl_no_nl rest ln h
    · rw [if_neg hc] at hln
      cases hr : pySplitNl rest with
      | nil => exact absurd hr (pySplitNl_ne_nil rest)
      | cons h t =>
        rw [hr] at hln
        rcases List.mem_cons.mp hln with h1 | h1
        · subst h1
          intro hmem
          rcases List.mem_cons.mp hmem with h2 | h2
          · exact hc h2.symm
          · exact pySplitNl_no_nl rest h (hr ▸ List.mem_cons_self h t) h2
        · exact pySplitNl_no_nl rest ln (hr ▸ List.mem_cons_of_mem h h1)

lemma pySplitNl_single {s : PyStr} (h : ('\n' : Char) ∉ s) :
    pySplitNl s = [s] := by
  induction s with
  | nil => rfl
  | cons c rest ih =>
    have hc : c ≠ '\n' := fun hcc => h (hcc ▸ List.mem_cons_self c rest)
    have hrest : ('\n' : Char) ∉ rest := fun hm => h (List.mem_cons_of_mem c hm)
    simp only [pySplitNl, ih hrest, if_neg hc]

/-! ### Results of `_extract_current_branch` are clean strings -/

/-- Every result of the extraction loop is a stripped string that does not
start with a parenthesis and (for newline-free input lines) contains no
newline. -/
lemma extractFromLines_spec (lines : List PyStr)
    (hnl : ∀ ln ∈ lines, ('\n' : Char) ∉ ln) :
    pyStrip (extractFromLines lines) = extractFromLines lines ∧
    pyStartsWith (extractFromLines lines) ['('] = false ∧
    ('\n' : Char) ∉ extractFromLines lines := by
  induction lines with
  | nil => exact ⟨by decide, by decide, by decide⟩
  | cons line rest ih =>
    have hline : ('\n' : Char) ∉ line := hnl line (List.mem_cons_self line rest)
    have hrest : ∀ ln ∈ rest, ('\n' : Char) ∉ ln :=
      fun ln h => hnl ln (List.mem_cons_of_mem line h)
    simp only [extractFromLines]
    by_cases hstar : pyStartsWith (pyStrip line) ['*']
    · rw [if_pos hstar]
      by_cases hpar : pyStartsWith (pyStrip ((pyStrip line).drop 1)) ['(']
      · rw [if_pos hpar]
        exact ⟨by decide, by decide, by decide⟩
      · rw [if_neg hpar]
        refine ⟨pyStrip_pyStrip _, by simpa using hpar, ?_⟩
        intro hmem
        exact hline
          ((((pyStrip_sublist _).trans (List.drop_sublist 1 _)).trans
            (pyStrip_sublist line)).subset hmem)
    · rw [if_neg hstar]
      exact ih hrest

/-- C8 helper: running the extraction on a one-line listing
`"* " ++ r`, for a clean result string `r`, returns `r` itself. -/
lemma extract_of_clean {r : PyStr} (hclean : pyStrip r = r)
    (hnl : ('\n' : Char) ∉ r) (hpar : pyStartsWith r ['('] = false) :
    extract_current_branch ('*' :: ' ' :: r) = r := by
  have hnl2 : ('\n' : Char) ∉ ('*' :: ' ' :: r) := by
    intro h
    rcases List.mem_cons.mp h with h1 | h1
    · exact absurd h1.symm (by decide)
    rcases List.mem_cons.mp h1 with h2 | h2
    · exact absurd h2.symm (by decide)
    · exact hnl h2
  rw [extract_current_branch, pySplitNl_single hnl2]
  have hdrop : ('*' :: ' ' :: r).dropWhile isPySpace = '*' :: ' ' :: r :=
    List.dropWhile_cons_of_neg (by decide)
  cases hr : r with
  | nil =>
    subst hr
    decide
  | cons a t =>
    rw [← hr]
    have hrne : r ≠ [] := by rw [hr]; exact List.cons_ne_nil a t
    have hlast : ∀ hne : ('*' :: ' ' :: r) ≠ [],
        ('*' :: ' ' :: r).getLast hne = r.getLast hrne := by
      intro hne
      rw [List.getLast_cons (by simp [hrne]), List.getLast_cons hrne]
    have hstrip : pyStrip ('*' :: ' ' :: r) = '*' :: ' ' :: r := by
      show List.rdropWhile isPySpace
          (('*' :: ' ' :: r).dropWhile isPySpace) = _
      rw [hdrop, List.rdropWhile_eq_self_iff]
      intro hne
      rw [hlast hne]
      have := List.rdropWhile_eq_self_iff.mp (clean_rdropWhile hclean)
      exact this hrne
    simp only [extractFromLines, hstrip]
    have hstar : pyStartsWith ('*' :: ' ' :: r) ['*'] = true := by
      simp [pyStartsWith, List.isPrefixOf]
    rw [if_pos hstar]
    have hdrop1 : ('*' :: ' ' :: r).drop 1 = ' ' :: r := rfl
    have hstrip2 : pyStrip (' ' :: r) = r := by
      show List.rdropWhile isPySpace ((' ' :: r).dropWhile isPySpace) = r
      rw [List.dropWhile_cons_of_pos (by decide), clean_dropWhile hclean]
      exact clean_rdropWhile hclean
    rw [hdrop1, hstrip2, if_neg (by simp [hpar])]

/-- **C8**: current-branch extraction is total (it is a function; on the
empty listing it returns the `"unknown"` sentinel rather than failing),
never reports a parenthesized (detached-state) name literally, and is
idempotent: re-running it on a one-line listing built from its own answer
returns the same answer. -/
theorem C8_extract_current_branch_total_detached_idem :
    extract_current_branch [] = "unknown".toList ∧
    (∀ l : PyStr, pyStartsWith (extract_current_branch l) ['('] = false) ∧
    (∀ l : PyStr,
      extract_current_branch ('*' :: ' ' :: extract_current_branch l) =
        extract_current_branch l) := by
  refine ⟨by decide, ?_, ?_⟩
  · intro l
    exact (extractFromLines_spec (pySplitNl l) (pySplitNl_no_nl l)).2.1
  · intro l
    obtain ⟨h1, h2, h3⟩ := extractFromLines_spec (pySplitNl l) (pySplitNl_no_nl l)
    exact extract_of_clean h1 h3 h2

/-! ## Command executor (`src/utils/git_commands.py`)

`run_git_command` wraps `subprocess.run(["git"] + command, capture_output=True,
text=True, check=True, timeout=30)`.  The subprocess outcome is the
embedding's input; the two exception classes the code catches
(`TimeoutExpired`, `CalledProcessError`) are the two non-success outcomes.
-/

/-- A single quote character (used in several message strings). -/
def sq : Char := Char.ofNat 39

/-- Outcome of the underlying subprocess call: the process completed with
an exit code and captured stdout/stderr, or it exceeded the 30-second
timeout. -/
inductive SubprocessOutcome where
  | completed (exitCode : Int) (stdout stderr : PyStr)
  | timedOut

/-- Python `repr` of a list of strings, as it appears in
`str(CalledProcessError)` (assuming no characters needing escapes). -/
def pyListRepr (parts : List PyStr) : PyStr :=
  ['['] ++ List.intercalate (", ".toList)
    (parts.map (fun p => [sq] ++ p ++ [sq])) ++ [']']

/-- Python `str(e)` for `subprocess.CalledProcessError`:
`Command '<cmd>' returned non-zero exit status <code>.` -/
def calledProcessErrorStr (cmd : List PyStr) (exitCode : Int) : PyStr :=
  "Command ".toList ++ [sq] ++ pyListRepr cmd ++ [sq] ++
    " returned non-zero exit status ".toList ++ (toString exitCode).toList ++ ['.']

/-- `run_git_command` (lines 7-22): returns stripped stdout on success,
a fixed timeout message on `TimeoutExpired`, and
`"Error: " + (e.stderr.strip() if e.stderr else str(e))` on
`CalledProcessError`. -/
def run_git_command (command : List PyStr) (outcome : SubprocessOutcome) : PyStr :=
  match outcome with
  | .timedOut => "Error: Command timed out (likely waiting for user input)".toList
  | .completed exitCode stdout stderr =>
    if exitCode = 0 then pyStrip stdout
    else
      let error_msg :=
        if stderr ≠ [] then pyStrip stderr
        else calledProcessErrorStr ("git".toList :: command) exitCode
      "Error: ".toList ++ error_msg

/-- The token-list transformation `execute_git_command` (lines 60-79)
applies before calling `run_git_command`: `parts` is the `shlex.split`
tokenization of `command` (after stripping a leading `"git "`), and
`command` itself is consulted for the `"--strategy-option" not in command`
substring test. -/
def execute_git_command_parts (parts : List PyStr) (command : PyStr) :
    List PyStr :=
  match parts with
  | [] => parts
  | p0 :: _ =>
    if p0 = "rebase".toList then
      if "--interactive".toList ∉ parts ∧ "-i".toList ∉ parts then
        if pyIn "--strategy-option".toList command = false then
          parts ++ ["--strategy-option".toList, "ours".toList]
        else parts
      else parts
    else if p0 = "merge".toList then
      if "--no-edit".toList ∉ parts then parts ++ ["--no-edit".toList]
      else parts
    else if p0 = "commit".toList then
      if "-m".toList ∉ parts ∧ "--message".toList ∉ parts then
        parts ++ ["-m".toList, "Automated commit".toList]
      else parts
    else parts

/-- **C4 counterexample**: on a non-zero exit with *empty* stderr the
executor does not return the stderr text prefixed with `"Error: "`
(which would be the 7-character string `"Error: "`); it returns
`"Error: " + str(e)` instead. -/
theorem C4_counterexample_empty_stderr :
    run_git_command ["status".toList] (.completed 1 [] []) ≠
      "Error: ".toList ++ pyStrip [] := by
  decide

/-- **C4 (amended)**: the executor is a total function into strings
(never raises, for both outcomes the code catches): on timeout it returns
the fixed timeout-error message; on non-zero exit it returns `"Error: "`
followed by the stripped stderr when stderr is non-empty, and otherwise by
the standard `CalledProcessError` description. -/
theorem C4_run_git_command_error_handling (command : List PyStr)
    (exitCode : Int) (stdout stderr : PyStr) :
    (run_git_command command .timedOut =
      "Error: Command timed out (likely waiting for user input)".toList) ∧
    (exitCode ≠ 0 → stderr ≠ [] →
      run_git_command command (.completed exitCode stdout stderr) =
        "Error: ".toList ++ pyStrip stderr) ∧
    (exitCode ≠ 0 → stderr = [] →
      run_git_command command (.completed exitCode stdout stderr) =
        "Error: ".toList ++
          calledProcessErrorStr ("git".toList :: command) exitCode) := by
  refine ⟨rfl, ?_, ?_⟩
  · intro hc hs
    simp [run_git_command, hc, hs]
  · intro hc hs
    simp [run_git_command, hc, hs]

/-- C4 amended-claim witness at a concrete input. -/
theorem C4_error_handling_witness :
    run_git_command ["status".toList] (.completed 1 [] "fatal: x\n".toList) =
      "Error: ".toList ++ pyStrip "fatal: x\n".toList :=
  (C4_run_git_command_error_handling ["status".toList] 1 [] "fatal: x\n".toList).2.1
    (by decide) (by decide)

/-- **C7**: before execution the executor injects non-interactive
equivalents: a `commit` without `-m`/`--message` gets
`-m "Automated commit"` appended; a `merge` without `--no-edit` gets
`--no-edit` appended; a `rebase` that does not itself request an
interactive run (no `-i`/`--interactive` token) and has no
`--strategy-option` in the command text gets
`--strategy-option ours` appended. -/
theorem C7_non_interactive_injection (parts : List PyStr) (command : PyStr)
    (rest : List PyStr) :
    (parts = "commit".toList :: rest → "-m".toList ∉ parts →
      "--message".toList ∉ parts →
      execute_git_command_parts parts command =
        parts ++ ["-m".toList, "Automated commit".toList]) ∧
    (parts = "merge".toList :: rest → "--no-edit".toList ∉ parts →
      execute_git_command_parts parts command =
        parts ++ ["--no-edit".toList]) ∧
    (parts = "rebase".toList :: rest → "--interactive".toList ∉ parts →
      "-i".toList ∉ parts → pyIn "--strategy-option".toList command = false →
      execute_git_command_parts parts command =
        parts ++ ["--strategy-option".toList, "ours".toList]) := by
  refine ⟨?_, ?_, ?_⟩
  · intro hp h1 h2
    subst hp
    have h1' : "-m".toList ∉ rest := fun hm => h1 (List.mem_cons_of_mem _ hm)
    have h2' : "--message".toList ∉ rest :=
      fun hm => h2 (List.mem_cons_of_mem _ hm)
    simp at h1' h2'
    simp [execute_git_command_parts, h1', h2']
  · intro hp h1
    subst hp
    have h1' : "--no-edit".toList ∉ rest :=
      fun hm => h1 (List.mem_cons_of_mem _ hm)
    simp at h1'
    simp [execute_git_command_parts, h1']
  · intro hp h1 h2 h3
    subst hp
    have h1' : "--interactive".toList ∉ rest :=
      fun hm => h1 (List.mem_cons_of_mem _ hm)
    have h2' : "-i".toList ∉ rest := fun hm => h2 (List.mem_cons_of_mem _ hm)
    simp at h1' h2'
    simp [execute_git_command_parts, h1', h2']
    simpa using h3

/-- C7 witness: the three injections at concrete commands. -/
theorem C7_injection_witness :
    execute_git_command_parts ["commit".toList] "commit".toList =
      ["commit".toList, "-m".toList, "Automated commit".toList] ∧
    execute_git_command_parts ["merge".toList, "main".toList]
        "merge main".toList =
      ["merge".toList, "main".toList, "--no-edit".toList] ∧
    execute_git_command_parts ["rebase".toList, "main".toList]
        "rebase main".toList =
      ["rebase".toList, "main".toList, "--strategy-option".toList,
        "ours".toList] :=
  ⟨(C7_non_interactive_injection ["commit".toList] "commit".toList []).1
      rfl (by decide) (by decide),
   (C7_non_interactive_injection ["merge".toList, "main".toList]
      "merge main".toList ["main".toList]).2.1 rfl (by decide),
   (C7_non_interactive_injection ["rebase".toList, "main".toList]
      "rebase main".toList ["main".toList]).2.2 rfl (by decide) (by decide)
      (by decide)⟩

/-! ## Outcome verifier (`_verify_command_success`, lines 138-211)

The verifier's reads of the repository (`execute_git_command(verify_cmd)`,
`get_git_branch()`, `get_git_status()`) are the embedding's input
environment `RepoProbes`.
-/

/-- The `verification_results` dictionary built by
`_verify_command_success`. -/
structure VerificationResults where
  success : Bool
  details : List (PyStr × PyStr)
  issues : List PyStr

/-- The read-only repository state consulted during verification. -/
structure RepoProbes where
  probeOutput : PyStr → PyStr
  branchListing : PyStr
  statusOutput : PyStr

/-- The `for verify_cmd in verification_commands` loop (lines 147-159):
record each probe's output and flag the generic failure markers
(case-insensitive `error` / `fatal`). -/
def runVerificationCommands (env : RepoProbes) (cmds : List PyStr)
    (vr : VerificationResults) : VerificationResults :=
  match cmds with
  | [] => vr
  | verify_cmd :: rest =>
    let result := env.probeOutput verify_cmd
    let vr1 : VerificationResults :=
      { vr with details := vr.details ++ [(verify_cmd, result)] }
    let vr2 :=
      if pyIn "error".toList (pyLower result) ||
          pyIn "fatal".toList (pyLower result) then
        { vr1 with
            success := false,
            issues := vr1.issues ++
              ["Verification command ".toList ++ [sq] ++ verify_cmd ++
                [sq] ++ " returned error: ".toList ++ result] }
      else vr1
    runVerificationCommands env rest vr2

/-- Python `d.get(k, default)` on the `details` dictionary (represented
as an association list where a later binding overwrites an earlier one). -/
def dictGetD (d : List (PyStr × PyStr)) (k : PyStr) (dflt : PyStr) : PyStr :=
  match d.reverse.find? (fun p => p.1 = k) with
  | some p => p.2
  | none => dflt

/-- `_verify_command_success`: the generic probe loop followed by the
command-specific semantic checks.  (`deleted_branch` / `expected_branch`
is `command.split()[-1]`, the command's last whitespace-separated token.) -/
def verify_command_success (env : RepoProbes) (command : PyStr)
    (expected_outcome : PyStr) (verification_commands : List PyStr) :
    VerificationResults :=
  if pyIn "branch -d".toList command || pyIn "branch -D".toList command then
    if pyIn ((pySplitWs command).getLastD []) env.branchListing then
      { runVerificationCommands env verification_commands
          { success := true, details := [], issues := [] } with
          success := false,
          issues := (runVerificationCommands env verification_commands
            { success := true, details := [], issues := [] }).issues ++
            ["Branch ".toList ++ (pySplitWs command).getLastD [] ++
              " still exists after deletion attempt".toList] }
    else runVerificationCommands env verification_commands
      { success := true, details := [], issues := [] }
  else if pyIn "checkout".toList command || pyIn "switch".toList command then
    if extract_current_branch env.branchListing ≠
        (pySplitWs command).getLastD [] then
      { runVerificationCommands env verification_commands
          { success := true, details := [], issues := [] } with
          success := false,
          issues := (runVerificationCommands env verification_commands
            { success := true, details := [], issues := [] }).issues ++
            ["Expected to be on branch ".toList ++
              (pySplitWs command).getLastD [] ++ ", but on ".toList ++
              extract_current_branch env.branchListing] }
    else runVerificationCommands env verification_commands
      { success := true, details := [], issues := [] }
  else if pyIn "add".toList command then
    if pyIn "Changes to be committed:".toList env.statusOutput = false ∧
        pyIn "nothing to commit".toList env.statusOutput = false then
      { runVerificationCommands env verification_commands
          { success := true, details := [], issues := [] } with
          success := false,
          issues := (runVerificationCommands env verification_commands
            { success := true, details := [], issues := [] }).issues ++
            ["Files were not properly staged".toList] }
    else runVerificationCommands env verification_commands
      { success := true, details := [], issues := [] }
  else if pyIn "commit".toList command then
    if pyIn "Changes to be committed:".toList env.statusOutput then
      { runVerificationCommands env verification_commands
          { success := true, details := [], issues := [] } with
          success := false,
          issues := (runVerificationCommands env verification_commands
            { success := true, details := [], issues := [] }).issues ++
            ["Commit failed - changes are still staged".toList] }
    else if pyIn "nothing to commit, working tree clean".toList
          env.statusOutput ||
        pyIn "Your branch is ahead of".toList env.statusOutput then
      runVerificationCommands env verification_commands
        { success := true, details := [], issues := [] }
    else if dictGetD (runVerificationCommands env verification_commands
          { success := true, details := [], issues := [] }).details
          "log -1".toList [] = [] ∨
        pyIn "commit".toList (dictGetD (runVerificationCommands env
          verification_commands
          { success := true, details := [], issues := [] }).details
          "log -1".toList []) = false then
      { runVerificationCommands env verification_commands
          { success := true, details := [], issues := [] } with
          success := false,
          issues := (runVerificationCommands env verification_commands
            { success := true, details := [], issues := [] }).issues ++
            ["Unable to verify commit was created".toList] }
    else runVerificationCommands env verification_commands
      { success := true, details := [], issues := [] }
  else if pyIn "push".toList command then
    if pyIn "Your branch is ahead of".toList env.statusOutput then
      { runVerificationCommands env verification_commands
          { success := true, details := [], issues := [] } with
          success := false,
          issues := (runVerificationCommands env verification_commands
            { success := true, details := [], issues := [] }).issues ++
            ["Push failed - branch is still ahead of remote".toList] }
    else runVerificationCommands env verification_commands
      { success := true, details := [], issues := [] }
  else runVerificationCommands env verification_commands
    { success := true, details := [], issues := [] }

/-- If no probe output contains a generic failure marker, the probe loop
leaves the `success` flag unchanged. -/
lemma runVerificationCommands_success_of_clean (env : RepoProbes) :
    ∀ (cmds : List PyStr) (vr : VerificationResults),
    (∀ c ∈ cmds, pyIn "error".toList (pyLower (env.probeOutput c)) = false ∧
      pyIn "fatal".toList (pyLower (env.probeOutput c)) = false) →
    (runVerificationCommands env cmds vr).success = vr.success
  | [], vr, _ => rfl
  | verify_cmd :: rest, vr, h => by
    have hc := h verify_cmd (List.mem_cons_self _ _)
    have hrest : ∀ c ∈ rest,
        pyIn "error".toList (pyLower (env.probeOutput c)) = false ∧
        pyIn "fatal".toList (pyLower (env.probeOutput c)) = false :=
      fun c hm => h c (List.mem_cons_of_mem _ hm)
    simp only [runVerificationCommands, hc.1, hc.2, Bool.or_self, if_neg]
    exact runVerificationCommands_success_of_clean env rest _ hrest

/-- **C3**: for a branch-deletion command, if the deleted branch name (the
command's last token) still appears in the post-command branch listing,
verification fails with an issue naming that branch; if it is absent and
no probe output carries a generic failure marker, verification succeeds. -/
theorem C3_branch_deletion_verification (env : RepoProbes) (command : PyStr)
    (expected_outcome : PyStr) (verification_commands : List PyStr)
    (hcmd : pyIn "branch -d".toList command = true ∨
      pyIn "branch -D".toList command = true) :
    (pyIn ((pySplitWs command).getLastD []) env.branchListing = true →
      (verify_command_success env command expected_outcome
        verification_commands).success = false ∧
      ∃ issue ∈ (verify_command_success env command expected_outcome
          verification_commands).issues,
        (pySplitWs command).getLastD [] <:+: issue) ∧
    (pyIn ((pySplitWs command).getLastD []) env.branchListing = false →
      (∀ c ∈ verification_commands,
        pyIn "error".toList (pyLower (env.probeOutput c)) = false ∧
        pyIn "fatal".toList (pyLower (env.probeOutput c)) = false) →
      (verify_command_success env command expected_outcome
        verification_commands).success = true) := by
  have hbd : (pyIn "branch -d".toList command ||
      pyIn "branch -D".toList command) = true := by
    rcases hcmd with h | h
    · rw [h]; rfl
    · rw [h]; exact Bool.or_true _
  constructor
  · intro hpresent
    unfold verify_command_success
    rw [if_pos hbd, if_pos hpresent]
    refine ⟨rfl, ?_⟩
    refine ⟨"Branch ".toList ++ (pySplitWs command).getLastD [] ++
      " still exists after deletion attempt".toList, ?_, ?_⟩
    · exact List.mem_append_right _ (List.mem_singleton.mpr rfl)
    · exact ⟨"Branch ".toList, " still exists after deletion attempt".toList,
        rfl⟩
  · intro habsent hclean
    unfold verify_command_success
    rw [if_pos hbd, if_neg (by rw [habsent]; exact Bool.false_ne_true)]
    exact runVerificationCommands_success_of_clean env verification_commands
      _ hclean

/-- C3 witness: a concrete failed deletion (branch still listed) and a
concrete successful one. -/
theorem C3_branch_deletion_witness :
    (verify_command_success
      ⟨fun _ => [], "* main\n  feature".toList, []⟩
      "branch -d feature".toList [] []).success = false ∧
    (verify_command_success
      ⟨fun _ => [], "* main".toList, []⟩
      "branch -d feature".toList [] []).success = true :=
  ⟨((C3_branch_deletion_verification
      ⟨fun _ => [], "* main\n  feature".toList, []⟩
      "branch -d feature".toList [] [] (Or.inl (by decide))).1
      (by decide)).1,
   (C3_branch_deletion_verification
      ⟨fun _ => [], "* main".toList, []⟩
      "branch -d feature".toList [] [] (Or.inl (by decide))).2
      (by decide) (by intro c hc; cases hc)⟩

/-- **C10**: a call with an empty verification-command list and a command
containing none of the recognized substrings is reported as verified
successful, with empty issues and empty details. -/
theorem C10_unrecognized_command_trivially_verified (env : RepoProbes)
    (command expected_outcome : PyStr)
    (h1 : pyIn "branch -d".toList command = false)
    (h2 : pyIn "branch -D".toList command = false)
    (h3 : pyIn "checkout".toList command = false)
    (h4 : pyIn "switch".toList command = false)
    (h5 : pyIn "add".toList command = false)
    (h6 : pyIn "commit".toList command = false)
    (h7 : pyIn "push".toList command = false) :
    verify_command_success env command expected_outcome [] =
      { success := true, details := [], issues := [] } := by
  unfold verify_command_success
  rw [if_neg (by rw [h1, h2]; exact Bool.false_ne_true),
    if_neg (by rw [h3, h4]; exact Bool.false_ne_true),
    if_neg (by rw [h5]; exact Bool.false_ne_true),
    if_neg (by rw [h6]; exact Bool.false_ne_true),
    if_neg (by rw [h7]; exact Bool.false_ne_true)]
  rfl

/-- C10 witness: `git status` with no probes verifies trivially. -/
theorem C10_unrecognized_command_witness :
    verify_command_success ⟨fun _ => [], [], []⟩ "status".toList [] [] =
      { success := true, details := [], issues := [] } :=
  C10_unrecognized_command_trivially_verified ⟨fun _ => [], [], []⟩
    "status".toList [] (by decide) (by decide) (by decide) (by decide)
    (by decide) (by decide) (by decide)

/-! ## Continuation decider (`_should_continue`, lines 653-795)

The slice of `GitAgentState` that `_should_continue` reads:
`execution_stopped`, `action["action_type"]`,
`session["original_query"]`, the commands of
`session["execution_history"]`, the truthiness of the three
`workflow_context` keys it consults, and
`state.get("verification_results", {}).get("success", True)`.
-/

/-- The state slice read by `_should_continue`. -/
structure ContinueState where
  execution_stopped : Bool
  action_type : PyStr
  original_query : PyStr
  executed_commands : List PyStr
  new_branch_created : Bool
  delete_current_branch : Bool
  branch_deleted : Bool
  verification_success : Bool

/-- `operation_keywords` (lines 674-678). -/
def operation_keywords : List PyStr :=
  ["switch".toList, "checkout".toList, "pull".toList, "push".toList,
   "merge".toList, "rebase".toList, "create".toList, "delete".toList,
   "add".toList, "stage".toList, "commit".toList, "unstage".toList,
   "stash".toList, "reset".toList, "cherry-pick".toList, "tag".toList,
   "fetch".toList]

/-- `mentioned_operations` (lines 681-684). -/
def mentioned_operations (q : PyStr) : List PyStr :=
  operation_keywords.filter (fun k => pyIn k q)

/-- `has_switched` (line 697). -/
def has_switched (cmds : List PyStr) : Bool :=
  cmds.any (fun c => pyIn "checkout".toList c || pyIn "switch".toList c)

/-- `has_pulled` (line 698). -/
def has_pulled (cmds : List PyStr) : Bool :=
  cmds.any (fun c => pyIn "pull".toList c)

/-- `has_merged` (line 699). -/
def has_merged (cmds : List PyStr) : Bool :=
  cmds.any (fun c => pyIn "merge".toList c)

/-- `has_staged` (line 733). -/
def has_staged (cmds : List PyStr) : Bool :=
  cmds.any (fun c => pyIn "add".toList c)

/-- `has_committed` (line 734). -/
def has_committed (cmds : List PyStr) : Bool :=
  cmds.any (fun c => pyIn "commit".toList c)

/-- `has_pushed` (line 735). -/
def has_pushed (cmds : List PyStr) : Bool :=
  cmds.any (fun c => pyIn "push".toList c)

/-- `has_created_branch` (line 752). -/
def has_created_branch (cmds : List PyStr) : Bool :=
  cmds.any (fun c => pyIn "checkout -b".toList c || pyIn "switch -c".toList c)

/-- The `workflow_incomplete` flag computed by the pattern chain
(lines 689-774), as a function of the lowercased original query, the
executed commands and the three workflow-context facts. -/
def workflow_incomplete (q : PyStr) (cmds : List PyStr)
    (new_branch_created delete_current_branch branch_deleted : Bool) : Bool :=
  if ((pyIn "switch".toList q || pyIn "checkout".toList q) &&
      pyIn "pull".toList q && pyIn "merge".toList q) = true then
    !(has_switched cmds && has_pulled cmds && has_merged cmds)
  else if (pyIn "pull".toList q && pyIn "merge".toList q) = true then
    !(has_pulled cmds && has_merged cmds)
  else if ((pyIn "stage".toList q || pyIn "add".toList q) &&
      pyIn "commit".toList q) = true then
    !has_staged cmds || !has_committed cmds ||
      (pyIn "push".toList q && !has_pushed cmds)
  else if (pyIn "create".toList q && pyIn "branch".toList q) = true then
    !has_created_branch cmds && !new_branch_created
  else if delete_current_branch = true then
    !branch_deleted
  else
    decide (cmds.length < (mentioned_operations q).length)

/-- `_should_continue`: returns the next node name,
`"analyzer"` (continue) or `"responder"` (stop). -/
def should_continue (st : ContinueState) : PyStr :=
  if st.execution_stopped = true then "responder".toList
  else if st.action_type = "execute_command".toList then
    if (workflow_incomplete (pyLower st.original_query) st.executed_commands
        st.new_branch_created st.delete_current_branch st.branch_deleted ||
        !st.verification_success) = true then
      "analyzer".toList
    else "responder".toList
  else "responder".toList

/-- For a non-stopped command-execution state, the decider continues
exactly when the workflow is incomplete or the last verification
failed. -/
lemma should_continue_analyzer_iff (st : ContinueState)
    (hstop : st.execution_stopped = false)
    (hact : st.action_type = "execute_command".toList) :
    should_continue st = "analyzer".toList ↔
      (workflow_incomplete (pyLower st.original_query) st.executed_commands
        st.new_branch_created st.delete_current_branch st.branch_deleted =
          true ∨
      st.verification_success = false) := by
  unfold should_continue
  rw [if_neg (by rw [hstop]; exact Bool.false_ne_true), if_pos hact]
  cases hw : workflow_incomplete (pyLower st.original_query)
      st.executed_commands st.new_branch_created st.delete_current_branch
      st.branch_deleted <;>
    cases hv : st.verification_success <;> decide

/-- Bool helper: a three-way conjunction is false when a named conjunct
is false. -/
lemma and3_ne_true {a b c : Bool} (h : b = false ∨ c = false) :
    (a && b && c) ≠ true := by
  rcases h with h | h <;> subst h <;> simp

/-- Bool helper: a conjunction is false when a conjunct is false. -/
lemma and2_ne_true {b c : Bool} (h : b = false ∨ c = false) :
    (b && c) ≠ true := by
  rcases h with h | h <;> subst h <;> simp

/-- **C1**: for a non-stopped state whose last action is a command
execution, the decider's output is binary (`"analyzer"` = continue,
`"responder"` = stop), and for each recognized multi-step pattern it
returns `"analyzer"` exactly when some required sub-step lacks evidence
in the executed-command history / workflow context or the last
verification failed — hence `"responder"` exactly on the step where the
last required sub-step's evidence is present with a passing
verification. -/
theorem C1_continuation_decider (st : ContinueState)
    (hstop : st.execution_stopped = false)
    (hact : st.action_type = "execute_command".toList) :
    (should_continue st = "analyzer".toList ∨
      should_continue st = "responder".toList) ∧
    (((pyIn "switch".toList (pyLower st.original_query) ||
        pyIn "checkout".toList (pyLower st.original_query)) &&
        pyIn "pull".toList (pyLower st.original_query) &&
        pyIn "merge".toList (pyLower st.original_query)) = true →
      (should_continue st = "analyzer".toList ↔
        (has_switched st.executed_commands && has_pulled st.executed_commands
          && has_merged st.executed_commands) = false ∨
        st.verification_success = false)) ∧
    ((pyIn "switch".toList (pyLower st.original_query) ||
        pyIn "checkout".toList (pyLower st.original_query)) = false →
      (pyIn "pull".toList (pyLower st.original_query) &&
        pyIn "merge".toList (pyLower st.original_query)) = true →
      (should_continue st = "analyzer".toList ↔
        (has_pulled st.executed_commands &&
          has_merged st.executed_commands) = false ∨
        st.verification_success = false)) ∧
    (((pyIn "stage".toList (pyLower st.original_query) ||
        pyIn "add".toList (pyLower st.original_query)) &&
        pyIn "commit".toList (pyLower st.original_query)) = true →
      (pyIn "pull".toList (pyLower st.original_query) = false ∨
        pyIn "merge".toList (pyLower st.original_query) = false) →
      (should_continue st = "analyzer".toList ↔
        has_staged st.executed_commands = false ∨
        has_committed st.executed_commands = false ∨
        (pyIn "push".toList (pyLower st.original_query) = true ∧
          has_pushed st.executed_commands = false) ∨
        st.verification_success = false)) ∧
    ((pyIn "create".toList (pyLower st.original_query) &&
        pyIn "branch".toList (pyLower st.original_query)) = true →
      (pyIn "pull".toList (pyLower st.original_query) = false ∨
        pyIn "merge".toList (pyLower st.original_query) = false) →
      ((pyIn "stage".toList (pyLower st.original_query) ||
        pyIn "add".toList (pyLower st.original_query)) &&
        pyIn "commit".toList (pyLower st.original_query)) = false →
      (should_continue st = "analyzer".toList ↔
        (has_created_branch st.executed_commands = false ∧
          st.new_branch_created = false) ∨
        st.verification_success = false)) ∧
    (st.delete_current_branch = true →
      (pyIn "pull".toList (pyLower st.original_query) = false ∨
        pyIn "merge".toList (pyLower st.original_query) = false) →
      ((pyIn "stage".toList (pyLower st.original_query) ||
        pyIn "add".toList (pyLower st.original_query)) &&
        pyIn "commit".toList (pyLower st.original_query)) = false →
      (pyIn "create".toList (pyLower st.original_query) &&
        pyIn "branch".toList (pyLower st.original_query)) = false →
      (should_continue st = "analyzer".toList ↔
        st.branch_deleted = false ∨
        st.verification_success = false)) := by
  refine ⟨?_, ?_, ?_, ?_, ?_, ?_⟩
  · unfold should_continue
    rw [if_neg (by rw [hstop]; exact Bool.false_ne_true), if_pos hact]
    by_cases h : (workflow_incomplete (pyLower st.original_query)
        st.executed_commands st.new_branch_created st.delete_current_branch
        st.branch_deleted || !st.verification_success) = true
    · rw [if_pos h]; exact Or.inl rfl
    · rw [if_neg h]; exact Or.inr rfl
  · intro h1
    rw [should_continue_analyzer_iff st hstop hact]
    have hwi : workflow_incomplete (pyLower st.original_query)
        st.executed_commands st.new_branch_created st.delete_current_branch
        st.branch_deleted =
        !(has_switched st.executed_commands && has_pulled st.executed_commands
          && has_merged st.executed_commands) := by
      unfold workflow_incomplete
      rw [if_pos h1]
    rw [hwi]
    cases has_switched st.executed_commands <;>
      cases has_pulled st.executed_commands <;>
      cases has_merged st.executed_commands <;>
      cases st.verification_success <;> decide
  · intro h0 h1
    rw [should_continue_analyzer_iff st hstop hact]
    have hwi : workflow_incomplete (pyLower st.original_query)
        st.executed_commands st.new_branch_created st.delete_current_branch
        st.branch_deleted =
        !(has_pulled st.executed_commands && has_merged st.executed_commands)
        := by
      unfold workflow_incomplete
      rw [if_neg (by rw [h0]; simp), if_pos h1]
    rw [hwi]
    cases has_pulled st.executed_commands <;>
      cases has_merged st.executed_commands <;>
      cases st.verification_success <;> decide
  · intro h1 hpm
    rw [should_continue_analyzer_iff st hstop hact]
    have hwi : workflow_incomplete (pyLower st.original_query)
        st.executed_commands st.new_branch_created st.delete_current_branch
        st.branch_deleted =
        (!has_staged st.executed_commands ||
          !has_committed st.executed_commands ||
          (pyIn "push".toList (pyLower st.original_query) &&
            !has_pushed st.executed_commands)) := by
      unfold workflow_incomplete
      rw [if_neg (and3_ne_true hpm), if_neg (and2_ne_true hpm), if_pos h1]
    rw [hwi]
    cases has_staged st.executed_commands <;>
      cases has_committed st.executed_commands <;>
      cases hpu : pyIn "push".toList (pyLower st.original_query) <;>
      cases has_pushed st.executed_commands <;>
      cases st.verification_success <;> simp
  · intro h1 hpm hsc
    rw [should_continue_analyzer_iff st hstop hact]
    have hwi : workflow_incomplete (pyLower st.original_query)
        st.executed_commands st.new_branch_created st.delete_current_branch
        st.branch_deleted =
        (!has_created_branch st.executed_commands &&
          !st.new_branch_created) := by
      unfold workflow_incomplete
      rw [if_neg (and3_ne_true hpm), if_neg (and2_ne_true hpm),
        if_neg (by rw [hsc]; exact Bool.false_ne_true), if_pos h1]
    rw [hwi]
    cases has_created_branch st.executed_commands <;>
      cases st.new_branch_created <;>
      cases st.verification_success <;> decide
  · intro hdel hpm hsc hcb
    rw [should_continue_analyzer_iff st hstop hact]
    have hwi : workflow_incomplete (pyLower st.original_query)
        st.executed_commands st.new_branch_created st.delete_current_branch
        st.branch_deleted = !st.branch_deleted := by
      unfold workflow_incomplete
      rw [if_neg (and3_ne_true hpm), if_neg (and2_ne_true hpm),
        if_neg (by rw [hsc]; exact Bool.false_ne_true),
        if_neg (by rw [hcb]; exact Bool.false_ne_true),
        if_pos (by rw [hdel])]
    rw [hwi]
    cases st.branch_deleted <;>
      cases st.verification_success <;> decide

/-- C1 witness: a stage+commit+push request with only the staging done
continues to the analyzer. -/
theorem C1_continuation_decider_witness :
    should_continue
      ⟨false, "execute_command".toList,
        "stage and commit and push it".toList, ["add .".toList],
        false, false, false, true⟩ = "analyzer".toList :=
  (((C1_continuation_decider
      ⟨false, "execute_command".toList,
        "stage and commit and push it".toList, ["add .".toList],
        false, false, false, true⟩ rfl rfl).2.2.2.1
    (by decide) (Or.inl (by decide))).mpr
    (Or.inr (Or.inl (by decide))))

/-! ## Session persistence (`_save_session` / `_load_session` /
`_find_active_session` / `_create_session` / `process_query`,
lines 71-114 and 836-870)

Session files live under `.git/gitagent_sessions/<session_id>.json`;
`json.dump` / `json.load` serialize the session dictionary.  JSON values
are modelled by the `Json` inductive; a session file's content is the
`Json` encoding of the session record (the `json` library's text
round-trip of such values is the identity, so the embedding works at the
value level). -/

/-- JSON values (the subset Python's `json` module produces for the
session dictionaries: objects keep insertion order). -/
inductive Json where
  | null
  | bool (b : Bool)
  | num (n : Int)
  | str (s : PyStr)
  | arr (elems : List Json)
  | obj (fields : List (PyStr × Json))

/-- One entry of `execution_history`, as built in `_command_executor`
(lines 479-488). -/
structure ExecutionEntry where
  step : Nat
  command : PyStr
  reasoning : PyStr
  expected_outcome : PyStr
  result : PyStr
  verification_success : Bool
  verification_details : VerificationResults
  timestamp : PyStr

/-- The `WorkflowSession` record (lines 30-38, built in
`_create_session`). -/
structure WorkflowSession where
  session_id : PyStr
  created_at : PyStr
  original_query : PyStr
  original_branch : PyStr
  workflow_context : List (PyStr × Json)
  execution_history : List ExecutionEntry
  current_step : Nat
  status : PyStr

/-- Encoding of a `VerificationResults` value into its JSON form. -/
def encodeVerification (vr : VerificationResults) : Json :=
  Json.obj [("success".toList, Json.bool vr.success),
    ("details".toList,
      Json.obj (vr.details.map (fun p => (p.1, Json.str p.2)))),
    ("issues".toList, Json.arr (vr.issues.map Json.str))]

/-- Reading a list of JSON strings back. -/
def decodeStrs : List Json → Option (List PyStr)
  | [] => some []
  | Json.str s :: rest =>
    match decodeStrs rest with
    | some r => some (s :: r)
    | none => none
  | _ => none

/-- Reading a string-valued JSON object back as an association list. -/
def decodeStrPairs : List (PyStr × Json) → Option (List (PyStr × PyStr))
  | [] => some []
  | (k, Json.str v) :: rest =>
    match decodeStrPairs rest with
    | some r => some ((k, v) :: r)
    | none => none
  | _ => none

/-- Reading a `VerificationResults` value back from its JSON form. -/
def decodeVerification : Json → Option VerificationResults
  | Json.obj [(k1, Json.bool b), (k2, Json.obj d), (k3, Json.arr iss)] =>
    if k1 = "success".toList ∧ k2 = "details".toList ∧
        k3 = "issues".toList then
      match decodeStrPairs d, decodeStrs iss with
      | some d2, some i2 =>
        some { success := b, details := d2, issues := i2 }
      | _, _ => none
    else none
  | _ => none

/-- Encoding of one execution-history entry (key order as built in
`_command_executor`). -/
def encodeEntry (e : ExecutionEntry) : Json :=
  Json.obj [("step".toList, Json.num e.step),
    ("command".toList, Json.str e.command),
    ("reasoning".toList, Json.str e.reasoning),
    ("expected_outcome".toList, Json.str e.expected_outcome),
    ("result".toList, Json.str e.result),
    ("verification_success".toList, Json.bool e.verification_success),
    ("verification_details".toList, encodeVerification e.verification_details),
    ("timestamp".toList, Json.str e.timestamp)]

/-- Reading one execution-history entry back. -/
def decodeEntry : Json → Option ExecutionEntry
  | Json.obj [(k1, Json.num stp), (k2, Json.str cmd), (k3, Json.str rsn),
      (k4, Json.str eo), (k5, Json.str res), (k6, Json.bool vs),
      (k7, vd), (k8, Json.str ts)] =>
    if k1 = "step".toList ∧ k2 = "command".toList ∧
        k3 = "reasoning".toList ∧ k4 = "expected_outcome".toList ∧
        k5 = "result".toList ∧ k6 = "verification_success".toList ∧
        k7 = "verification_details".toList ∧ k8 = "timestamp".toList then
      match decodeVerification vd with
      | some v2 =>
        some { step := stp.toNat, command := cmd, reasoning := rsn,
               expected_outcome := eo, result := res,
               verification_success := vs, verification_details := v2,
               timestamp := ts }
      | none => none
    else none
  | _ => none

/-- Reading the execution history back. -/
def decodeEntries : List Json → Option (List ExecutionEntry)
  | [] => some []
  | j :: rest =>
    match decodeEntry j, decodeEntries rest with
    | some e, some r => some (e :: r)
    | _, _ => none

/-- Encoding of a whole session record (key order as in
`_create_session`). -/
def encodeSession (s : WorkflowSession) : Json :=
  Json.obj [("session_id".toList, Json.str s.session_id),
    ("created_at".toList, Json.str s.created_at),
    ("original_query".toList, Json.str s.original_query),
    ("original_branch".toList, Json.str s.original_branch),
    ("workflow_context".toList, Json.obj s.workflow_context),
    ("execution_history".toList,
      Json.arr (s.execution_history.map encodeEntry)),
    ("current_step".toList, Json.num s.current_step),
    ("status".toList, Json.str s.status)]

/-- Reading a session record back from its JSON file content. -/
def decodeSession : Json → Option WorkflowSession
  | Json.obj [(k1, Json.str sid), (k2, Json.str cat), (k3, Json.str oq),
      (k4, Json.str ob), (k5, Json.obj wc), (k6, Json.arr hist),
      (k7, Json.num cs), (k8, Json.str st)] =>
    if k1 = "session_id".toList ∧ k2 = "created_at".toList ∧
        k3 = "original_query".toList ∧ k4 = "original_branch".toList ∧
        k5 = "workflow_context".toList ∧ k6 = "execution_history".toList ∧
        k7 = "current_step".toList ∧ k8 = "status".toList then
      match decodeEntries hist with
      | some h2 =>
        some { session_id := sid, created_at := cat, original_query := oq,
               original_branch := ob, workflow_context := wc,
               execution_history := h2, current_step := cs.toNat,
               status := st }
      | none => none
    else none
  | _ => none

/-- The session directory: one file per name, name = session id
(`_get_session_file`). -/
def store_lookup : List (PyStr × Json) → PyStr → Option Json
  | [], _ => none
  | p :: rest, k => if p.1 = k then some p.2 else store_lookup rest k

/-- Writing a file: replace the file of that name, or create it. -/
def store_write : List (PyStr × Json) → PyStr → Json → List (PyStr × Json)
  | [], k, v => [(k, v)]
  | p :: rest, k, v =>
    if p.1 = k then (k, v) :: rest else p :: store_write rest k v

/-- `_save_session`: `json.dump(session)` into
`<session["session_id"]>.json`. -/
def save_session (store : List (PyStr × Json)) (s : WorkflowSession) :
    List (PyStr × Json) :=
  store_write store s.session_id (encodeSession s)

/-- `_load_session`: `json.load` of `<session_id>.json`, read back as a
session record; `None` when the file does not exist. -/
def load_session (store : List (PyStr × Json)) (session_id : PyStr) :
    Option WorkflowSession :=
  match store_lookup store session_id with
  | some j => decodeSession j
  | none => none

lemma decodeStrs_map (l : List PyStr) :
    decodeStrs (l.map Json.str) = some l := by
  induction l with
  | nil => rfl
  | cons a t ih => simp [decodeStrs, ih]

lemma decodeStrPairs_map (l : List (PyStr × PyStr)) :
    decodeStrPairs (l.map (fun p => (p.1, Json.str p.2))) = some l := by
  induction l with
  | nil => rfl
  | cons a t ih => simp [decodeStrPairs, ih]

lemma decodeVerification_encode (vr : VerificationResults) :
    decodeVerification (encodeVerification vr) = some vr := by
  cases vr with
  | mk b d i =>
    simp [encodeVerification, decodeVerification,
      decodeStrPairs_map, decodeStrs_map]

lemma decodeEntry_encode (e : ExecutionEntry) :
    decodeEntry (encodeEntry e) = some e := by
  cases e with
  | mk stp cmd rsn eo res vs vd ts =>
    simp [encodeEntry, decodeEntry, decodeVerification_encode]

lemma decodeEntries_map (l : List ExecutionEntry) :
    decodeEntries (l.map encodeEntry) = some l := by
  induction l with
  | nil => rfl
  | cons e t ih => simp [decodeEntries, decodeEntry_encode, ih]

lemma decodeSession_encode (s : WorkflowSession) :
    decodeSession (encodeSession s) = some s := by
  cases s with
  | mk sid cat oq ob wc hist cs st =>
    simp [encodeSession, decodeSession, decodeEntries_map]

lemma store_lookup_write (store : List (PyStr × Json)) (k : PyStr)
    (v : Json) : store_lookup (store_write store k v) k = some v := by
  induction store with
  | nil => simp [store_write, store_lookup]
  | cons p rest ih =>
    by_cases hp : p.1 = k
    · simp [store_write, hp, store_lookup]
    · simp [store_write, hp, store_lookup, ih]

/-- **C9**: persisting a session with `_save_session` and reloading it
with `_load_session` under its id yields the identical record, for any
session (in particular with zero, one, or many history entries). -/
theorem C9_session_roundtrip (store : List (PyStr × Json))
    (s : WorkflowSession) :
    load_session (save_session store s) s.session_id = some s := by
  unfold load_session save_session
  rw [store_lookup_write]
  exact decodeSession_encode s

/-! ## Single active session (`_find_active_session` lines 85-98,
`process_query` lines 836-870)

The session directory is modelled at the record level: one record per
file, file name = `session_id` (files are written only by
`_save_session`, whose file name is derived from the record's id, so
ids are unique across the directory — the `Nodup` hypothesis below). -/

/-- The check `session.get("status") == "active"`. -/
def isActive (s : WorkflowSession) : Bool := s.status = "active".toList

/-- `_find_active_session`: scan the directory, return the first session
whose status is `"active"`. -/
def find_active_session (sessions : List WorkflowSession) :
    Option WorkflowSession :=
  sessions.find? isActive

/-- Writing a session file: replace the record of that id, or append. -/
def sessions_write : List WorkflowSession → WorkflowSession →
    List WorkflowSession
  | [], s => [s]
  | t :: rest, s =>
    if t.session_id = s.session_id then s :: rest
    else t :: sessions_write rest s

/-- `_create_session` (lines 100-114): a fresh record with empty context
and history, step 0, status `"active"`. -/
def new_session (query branch session_id created_at : PyStr) :
    WorkflowSession :=
  { session_id := session_id, created_at := created_at,
    original_query := query, original_branch := branch,
    workflow_context := [], execution_history := [], current_step := 0,
    status := "active".toList }

/-- The branch of `process_query` taken once the active-session scan has
returned: without auto-approve, a declined confirmation marks the found
session `"completed"` and saves it, then a fresh active session is
created and saved; otherwise the found session is resumed (nothing
written).  When no active session exists, a fresh one is created. -/
def resolve_session (sessions : List WorkflowSession)
    (auto_approve continue_session : Bool)
    (query branch session_id created_at : PyStr) :
    Option WorkflowSession → List WorkflowSession
  | some active =>
    if auto_approve = false ∧ continue_session = false then
      sessions_write
        (sessions_write sessions { active with status := "completed".toList })
        (new_session query branch session_id created_at)
    else sessions
  | none => sessions_write sessions
      (new_session query branch session_id created_at)

/-- The session-management prefix of `process_query` (lines 839-870). -/
def process_query_sessions (sessions : List WorkflowSession)
    (auto_approve continue_session : Bool)
    (query branch session_id created_at : PyStr) :
    List WorkflowSession :=
  resolve_session sessions auto_approve continue_session query branch
    session_id created_at (find_active_session sessions)

/-- Number of sessions currently marked active. -/
def countActive (sessions : List WorkflowSession) : Nat :=
  (sessions.filter isActive).length

lemma length_le_one_mem {α : Type} {l : List α} {x y : α}
    (h : l.length ≤ 1) (hx : x ∈ l) (hy : y ∈ l) : x = y := by
  match l with
  | [] => cases hx
  | [a] =>
    rw [List.mem_singleton] at hx hy
    rw [hx, hy]
  | a :: b :: t => simp at h

/-- With at most one active session, two active members coincide. -/
lemma active_unique {sessions : List WorkflowSession}
    {a t : WorkflowSession} (hinv : countActive sessions ≤ 1)
    (ha : a ∈ sessions) (has : isActive a = true)
    (ht : t ∈ sessions) (hts : isActive t = true) : t = a := by
  have hma : a ∈ sessions.filter isActive := List.mem_filter.mpr ⟨ha, has⟩
  have hmt : t ∈ sessions.filter isActive := List.mem_filter.mpr ⟨ht, hts⟩
  exact length_le_one_mem hinv hmt hma

lemma mem_sessions_write {t s : WorkflowSession} :
    ∀ {store : List WorkflowSession}, t ∈ sessions_write store s →
      t = s ∨ t ∈ store
  | [], h => by
    simp [sessions_write] at h
    exact Or.inl h
  | hd :: rest, h => by
    by_cases hid : hd.session_id = s.session_id
    · simp only [sessions_write, if_pos hid] at h
      rcases List.mem_cons.mp h with h1 | h1
      · exact Or.inl h1
      · exact Or.inr (List.mem_cons_of_mem _ h1)
    · simp only [sessions_write, if_neg hid] at h
      rcases List.mem_cons.mp h with h1 | h1
      · exact Or.inr (h1 ▸ List.mem_cons_self _ _)
      · rcases mem_sessions_write h1 with h2 | h2
        · exact Or.inl h2
        · exact Or.inr (List.mem_cons_of_mem _ h2)

/-- With unique ids, a surviving record of a write has a different id
from the written one. -/
lemma mem_sessions_write_nodup {t s : WorkflowSession} :
    ∀ {store : List WorkflowSession},
      (store.map (fun x => x.session_id)).Nodup →
      t ∈ sessions_write store s →
      t = s ∨ (t ∈ store ∧ t.session_id ≠ s.session_id)
  | [], _, h => by
    simp [sessions_write] at h
    exact Or.inl h
  | hd :: rest, hnd, h => by
    rw [List.map_cons, List.nodup_cons] at hnd
    by_cases hid : hd.session_id = s.session_id
    · simp only [sessions_write, if_pos hid] at h
      rcases List.mem_cons.mp h with h1 | h1
      · exact Or.inl h1
      · refine Or.inr ⟨List.mem_cons_of_mem _ h1, ?_⟩
        intro hts
        exact hnd.1 (hid ▸ hts ▸ List.mem_map_of_mem _ h1)
    · simp only [sessions_write, if_neg hid] at h
      rcases List.mem_cons.mp h with h1 | h1
      · exact Or.inr ⟨h1 ▸ List.mem_cons_self _ _, h1 ▸ hid⟩
      · rcases mem_sessions_write_nodup hnd.2 h1 with h2 | h2
        · exact Or.inl h2
        · exact Or.inr ⟨List.mem_cons_of_mem _ h2.1, h2.2⟩

lemma countActive_eq_zero {sessions : List WorkflowSession}
    (h : ∀ t ∈ sessions, isActive t = false) :
    countActive sessions = 0 := by
  unfold countActive
  rw [List.length_eq_zero, List.filter_eq_nil_iff]
  intro a ha
  simp [h a ha]

lemma countActive_cons_inactive {hd : WorkflowSession}
    {rest : List WorkflowSession} (h : isActive hd = false) :
    countActive (hd :: rest) = countActive rest := by
  unfold countActive
  rw [List.filter_cons_of_neg (by simp [h])]

lemma countActive_cons_le {hd : WorkflowSession}
    {rest : List WorkflowSession} :
    countActive (hd :: rest) ≤ countActive rest + 1 := by
  unfold countActive
  cases hhd : isActive hd
  · rw [List.filter_cons_of_neg (by simp [hhd])]
    exact Nat.le_succ _
  · rw [List.filter_cons_of_pos (by simp [hhd])]
    exact Nat.le_refl _

/-- Writing one session into an all-inactive directory leaves at most
one active session. -/
lemma countActive_write_le_one {s : WorkflowSession} :
    ∀ {store : List WorkflowSession},
      (∀ t ∈ store, isActive t = false) →
      countActive (sessions_write store s) ≤ 1
  | [], _ => by
    show countActive [s] ≤ 1
    calc countActive [s] ≤ countActive [] + 1 := countActive_cons_le
    _ = 1 := rfl
  | hd :: rest, h => by
    have hhd := h hd (List.mem_cons_self _ _)
    have hrest : ∀ t ∈ rest, isActive t = false :=
      fun t hm => h t (List.mem_cons_of_mem _ hm)
    by_cases hid : hd.session_id = s.session_id
    · simp only [sessions_write, if_pos hid]
      calc countActive (s :: rest) ≤ countActive rest + 1 :=
            countActive_cons_le
      _ = 1 := by rw [countActive_eq_zero hrest]
    · simp only [sessions_write, if_neg hid]
      rw [countActive_cons_inactive hhd]
      exact countActive_write_le_one hrest

/-- **C2**: starting from a directory with unique session ids and at most
one active session, the session-management step of `process_query`
(a) preserves "at most one active session", (b) on resume leaves the
directory unchanged (no second session is created), and (c) when the
user declines to continue, the found active session is superseded —
afterwards the only active session is the freshly created one. -/
theorem C2_single_active_session (sessions : List WorkflowSession)
    (auto_approve continue_session : Bool)
    (query branch session_id created_at : PyStr)
    (hnodup : (sessions.map (fun x => x.session_id)).Nodup)
    (hinv : countActive sessions ≤ 1) :
    countActive (process_query_sessions sessions auto_approve
      continue_session query branch session_id created_at) ≤ 1 ∧
    (∀ a, find_active_session sessions = some a →
      (auto_approve = true ∨ continue_session = true) →
      process_query_sessions sessions auto_approve continue_session
        query branch session_id created_at = sessions) ∧
    (∀ a, find_active_session sessions = some a →
      auto_approve = false → continue_session = false →
      ∀ t ∈ process_query_sessions sessions auto_approve continue_session
        query branch session_id created_at,
        isActive t = true →
        t = new_session query branch session_id created_at) := by
  have hall : ∀ (a : WorkflowSession),
      find_active_session sessions = some a →
      ∀ t ∈ sessions_write sessions
        { a with status := "completed".toList },
        isActive t = false := by
    intro a hfind t hmem
    have hamem : a ∈ sessions := List.mem_of_find?_eq_some hfind
    have hastat : isActive a = true := List.find?_some hfind
    rcases mem_sessions_write_nodup hnodup hmem with h1 | h1
    · rw [h1]
      rfl
    · by_contra hts
      rw [Bool.not_eq_false] at hts
      have : t = a := active_unique hinv hamem hastat h1.1 hts
      exact h1.2 (by rw [this])
  refine ⟨?_, ?_, ?_⟩
  · unfold process_query_sessions
    cases hfind : find_active_session sessions with
    | none =>
      have hnone : ∀ t ∈ sessions, isActive t = false := by
        intro t hm
        have := List.find?_eq_none.mp hfind t hm
        rwa [Bool.not_eq_true] at this
      exact countActive_write_le_one hnone
    | some a =>
      simp only [resolve_session]
      by_cases hd : auto_approve = false ∧ continue_session = false
      · rw [if_pos hd]
        exact countActive_write_le_one (hall a hfind)
      · rw [if_neg hd]
        exact hinv
  · intro a hfind hres
    unfold process_query_sessions
    rw [hfind]
    simp only [resolve_session]
    rw [if_neg (fun hc => by
      rcases hres with h | h
      · rw [h] at hc; exact Bool.noConfusion hc.1
      · rw [h] at hc; exact Bool.noConfusion hc.2)]
  · intro a hfind hauto hcont t hmem hts
    rw [process_query_sessions, hfind] at hmem
    have hmem2 : t ∈ sessions_write
        (sessions_write sessions { a with status := "completed".toList })
        (new_session query branch session_id created_at) := by
      have : resolve_session sessions auto_approve continue_session query
          branch session_id created_at (some a) =
          sessions_write (sessions_write sessions
            { a with status := "completed".toList })
            (new_session query branch session_id created_at) := by
        simp only [resolve_session]
        rw [if_pos ⟨hauto, hcont⟩]
      rwa [this] at hmem
    rcases mem_sessions_write hmem2 with h1 | h1
    · exact h1
    · rw [hall a hfind t h1] at hts
      exact absurd hts (by decide)

/-- C2 witness: a directory holding one active session, with the user
declining to resume it. -/
theorem C2_single_active_session_witness :
    countActive (process_query_sessions
      [new_session "stage all".toList "main".toList "session_1".toList
        "t1".toList]
      false false "push it".toList "main".toList "session_2".toList
      "t2".toList) ≤ 1 :=
  (C2_single_active_session
    [new_session "stage all".toList "main".toList "session_1".toList
      "t1".toList]
    false false "push it".toList "main".toList "session_2".toList
    "t2".toList (by decide) (by decide)).1

/-! ## Planner response parsing (`_analyzer` lines 325-423) and the
router (`_router` lines 642-651, conditional edges lines 808-816)

The oracle reply handling: `response is None` yields the Stop action;
otherwise `re.search(r'\x7b.*\x7d', response.strip(), re.DOTALL)` grabs
the span from the first opening to the last closing brace, `json.loads`
parses it, missing keys are defaulted, and parse failures fall back to
the deterministic keyword ladder. -/

/-- The action dictionary the analyzer produces.  Field values are raw
JSON values, as in the Python dictionary. -/
structure GitActionJ where
  action_type : Json
  command : Json
  reasoning : Json
  expected_outcome : Json
  verification_commands : Json

/-- Python dict lookup (`k in d` / `d[k]`); a later duplicate key
overwrites an earlier one, as in `json.loads`. -/
def jsonGet (fields : List (PyStr × Json)) (k : PyStr) : Option Json :=
  match fields.reverse.find? (fun p => p.1 = k) with
  | some p => some p.2
  | none => none

/-- Index of the first character satisfying `p`. -/
def firstIdxFrom (p : Char → Bool) : PyStr → Option Nat
  | [] => none
  | c :: rest =>
    if p c then some 0 else (firstIdxFrom p rest).map (fun i => i + 1)

/-- Index of the last character satisfying `p`. -/
def lastIdxOf (p : Char → Bool) (s : PyStr) : Option Nat :=
  (firstIdxFrom p s.reverse).map (fun i => s.length - 1 - i)

/-- `re.search(r'\x7b.*\x7d', s, re.DOTALL)` and `.group(0)`: the span
from the first opening brace to the last closing brace, when the latter
comes after the former. -/
def brace_search (s : PyStr) : Option PyStr :=
  match firstIdxFrom (fun c => c = '\x7b') s,
      lastIdxOf (fun c => c = '\x7d') s with
  | some i, some j =>
    if i < j then some ((s.drop i).take (j - i + 1)) else none
  | _, _ => none

/-! ### `json.loads`, for the value shapes the oracle replies use
(objects, arrays, strings without escape sequences, integers, booleans,
null).  A reply whose strings contain backslash escapes is treated as
unparsable. -/

/-- JSON whitespace. -/
def jsonWs (c : Char) : Bool :=
  c = ' ' || c = '\t' || c = '\n' || c = '\x0d'

/-- Contents of a string literal after the opening quote. -/
def parseStringRest : PyStr → Option (PyStr × PyStr)
  | [] => none
  | c :: rest =>
    if c = '"' then some ([], rest)
    else if c = '\\' then none
    else
      match parseStringRest rest with
      | some (s, r) => some (c :: s, r)
      | none => none

/-- A run of decimal digits. -/
def parseNat (s : PyStr) : Option (Nat × PyStr) :=
  match s.takeWhile Char.isDigit with
  | [] => none
  | ds => some (ds.foldl (fun acc c => acc * 10 + (c.toNat - 48)) 0,
      s.drop ds.length)

/-- An integer literal. -/
def parseNumber : PyStr → Option (Int × PyStr)
  | '-' :: rest =>
    match parseNat rest with
    | some (n, r) => some ((-(n : Int)), r)
    | none => none
  | s =>
    match parseNat s with
    | some (n, r) => some ((n : Int), r)
    | none => none

mutual

/-- A JSON value (fuel-bounded recursive descent). -/
def parseValue : Nat → PyStr → Option (Json × PyStr)
  | 0, _ => none
  | fuel + 1, s =>
    match (s.dropWhile jsonWs : PyStr) with
    | [] => none
    | c :: rest =>
      if c = '"' then
        match parseStringRest rest with
        | some (str, r) => some (Json.str str, r)
        | none => none
      else if c = '\x7b' then parseObjRest fuel (rest.dropWhile jsonWs)
      else if c = '[' then parseArrRest fuel (rest.dropWhile jsonWs)
      else if c = 't' then
        if "rue".toList.isPrefixOf rest then
          some (Json.bool true, rest.drop 3)
        else none
      else if c = 'f' then
        if "alse".toList.isPrefixOf rest then
          some (Json.bool false, rest.drop 4)
        else none
      else if c = 'n' then
        if "ull".toList.isPrefixOf rest then some (Json.null, rest.drop 3)
        else none
      else
        match parseNumber (c :: rest) with
        | some (n, r) => some (Json.num n, r)
        | none => none

/-- The inside of an object, after the opening brace and whitespace. -/
def parseObjRest : Nat → PyStr → Option (Json × PyStr)
  | 0, _ => none
  | fuel + 1, s =>
    match s with
    | '\x7d' :: rest => some (Json.obj [], rest)
    | _ => parseMembers fuel s []

/-- Object members. -/
def parseMembers : Nat → PyStr → List (PyStr × Json) →
    Option (Json × PyStr)
  | 0, _, _ => none
  | fuel + 1, s, acc =>
    match (s.dropWhile jsonWs : PyStr) with
    | '"' :: rest =>
      match parseStringRest rest with
      | some (key, r1) =>
        match (r1.dropWhile jsonWs : PyStr) with
        | ':' :: r2 =>
          match parseValue fuel r2 with
          | some (v, r3) =>
            match (r3.dropWhile jsonWs : PyStr) with
            | ',' :: r4 => parseMembers fuel r4 (acc ++ [(key, v)])
            | '\x7d' :: r4 => some (Json.obj (acc ++ [(key, v)]), r4)
            | _ => none
          | none => none
        | _ => none
      | none => none
    | _ => none

/-- The inside of an array, after the opening bracket and whitespace. -/
def parseArrRest : Nat → PyStr → Option (Json × PyStr)
  | 0, _ => none
  | fuel + 1, s =>
    match s with
    | ']' :: rest => some (Json.arr [], rest)
    | _ => parseElems fuel s []

/-- Array elements. -/
def parseElems : Nat → PyStr → List Json → Option (Json × PyStr)
  | 0, _, _ => none
  | fuel + 1, s, acc =>
    match parseValue fuel s with
    | some (v, r) =>
      match (r.dropWhile jsonWs : PyStr) with
      | ',' :: r2 => parseElems fuel r2 (acc ++ [v])
      | ']' :: r2 => some (Json.arr (acc ++ [v]), r2)
      | _ => none
    | none => none

end

/-- `json.loads`: parse one value and require only trailing whitespace. -/
def json_loads (s : PyStr) : Option Json :=
  match parseValue (s.length + 1) s with
  | some (v, rest) => if rest.dropWhile jsonWs = [] then some v else none
  | none => none

/-- Lines 348-358: fill any missing required field of the extracted
action object with its default. -/
def action_from_fields (fields : List (PyStr × Json)) (force_action : Bool) :
    GitActionJ :=
  { action_type := (jsonGet fields "action_type".toList).getD
      (Json.str (if force_action then "execute_command".toList
        else "provide_info".toList)),
    command := (jsonGet fields "command".toList).getD (Json.str []),
    reasoning := (jsonGet fields "reasoning".toList).getD
      (Json.str "Generated from response".toList),
    expected_outcome := (jsonGet fields "expected_outcome".toList).getD
      (Json.str []),
    verification_commands :=
      (jsonGet fields "verification_commands".toList).getD
        (Json.arr [Json.str "status".toList]) }

/-- The remainder of the input after the first occurrence of `pat`. -/
def dropThroughFirst (pat : PyStr) : PyStr → Option PyStr
  | [] => if pat.isPrefixOf [] then some [] else none
  | c :: rest =>
    if pat.isPrefixOf (c :: rest) then some ((c :: rest).drop pat.length)
    else dropThroughFirst pat rest

/-- Skip an optional `word` followed by whitespace. -/
def skipOptWord (word : PyStr) (s : PyStr) : PyStr :=
  if word.isPrefixOf s then
    match (s.drop word.length : PyStr) with
    | c :: r => if isPySpace c then (c :: r).dropWhile isPySpace else s
    | [] => s
  else s

/-- Modelled after
`re.search(r'(?:branch\s+(?:named\s+)?(?:with name\s+)?)([^\s]+)', q)`
(line 383): after the first `branch` followed by whitespace, skip an
optional `named `/`with name ` and capture the next whitespace-free
token.  (The regex engine would also try later `branch` occurrences when
the first is not followed by a capturable token; the queries this
fallback handles contain a single `branch`.) -/
def branch_name_match (q : PyStr) : Option PyStr :=
  match dropThroughFirst "branch".toList q with
  | none => none
  | some r1 =>
    match r1 with
    | [] => none
    | c :: _ =>
      if isPySpace c then
        match (skipOptWord "with name".toList
            (skipOptWord "named".toList
              (r1.dropWhile isPySpace))).takeWhile
            (fun d => !isPySpace d) with
        | [] => none
        | tok => some tok
      else none

/-- The keyword-fallback actions (lines 372-416). -/
def unstage_action : GitActionJ :=
  { action_type := Json.str "execute_command".toList,
    command := Json.str "reset HEAD .".toList,
    reasoning := Json.str "Unstaging all staged changes as requested".toList,
    expected_outcome :=
      Json.str "All staged changes will be unstaged".toList,
    verification_commands := Json.arr [Json.str "status".toList] }

def create_branch_action (branch_name : PyStr) : GitActionJ :=
  { action_type := Json.str "execute_command".toList,
    command := Json.str ("checkout -b ".toList ++ branch_name),
    reasoning := Json.str ("Creating new branch ".toList ++ branch_name ++
      " as requested".toList),
    expected_outcome := Json.str ("New branch ".toList ++ branch_name ++
      " will be created and checked out".toList),
    verification_commands := Json.arr [Json.str "branch".toList] }

def status_action : GitActionJ :=
  { action_type := Json.str "execute_command".toList,
    command := Json.str "status".toList,
    reasoning :=
      Json.str "Checking repository status to determine next action".toList,
    expected_outcome :=
      Json.str "Repository status will be displayed".toList,
    verification_commands := Json.arr [] }

def provide_info_action (reasoning : PyStr) : GitActionJ :=
  { action_type := Json.str "provide_info".toList,
    command := Json.str [],
    reasoning := Json.str reasoning,
    expected_outcome := Json.str [],
    verification_commands := Json.arr [] }

/-- The `except` ladder (lines 363-416): deterministic keyword defaults
for step 0 of action requests, otherwise a provide-info action echoing
the raw response as reasoning. -/
def fallback_action (r : PyStr) (force_action is_action_request : Bool)
    (workflow_step : Nat) (original_query : PyStr) : GitActionJ :=
  if force_action || is_action_request then
    if workflow_step = 0 then
      if pyIn "unstage".toList (pyLower original_query) then unstage_action
      else if pyIn "create".toList (pyLower original_query) &&
          pyIn "branch".toList (pyLower original_query) then
        create_branch_action
          ((branch_name_match (pyLower original_query)).getD
            "new-branch".toList)
      else status_action
    else provide_info_action r
  else provide_info_action r

/-- Lines 328-335: the Stop action produced when the oracle is
unavailable. -/
def end_action : GitActionJ :=
  { action_type := Json.str "end".toList,
    command := Json.str [],
    reasoning := Json.str "API service unavailable. Please try again.".toList,
    expected_outcome := Json.str [],
    verification_commands := Json.arr [] }

/-- The step after brace extraction: `json.loads` the extracted block
and default the missing fields; a parse failure takes the fallback
ladder. -/
def analyzer_loads (json_str r : PyStr)
    (force_action is_action_request : Bool) (workflow_step : Nat)
    (original_query : PyStr) : GitActionJ :=
  match json_loads json_str with
  | some (Json.obj fields) => action_from_fields fields force_action
  | _ =>
    fallback_action r force_action is_action_request workflow_step
      original_query

/-- `_analyzer`, lines 325-416: from the oracle reply to the action. -/
def analyzer_action (response : Option PyStr)
    (force_action is_action_request : Bool) (workflow_step : Nat)
    (original_query : PyStr) : GitActionJ :=
  match response with
  | none => end_action
  | some r =>
    match brace_search (pyStrip r) with
    | some json_str =>
      analyzer_loads json_str r force_action is_action_request
        workflow_step original_query
    | none =>
      fallback_action r force_action is_action_request workflow_step
        original_query

/-- `_router` (lines 642-651): route on the action kind. -/
def router : Json → PyStr
  | Json.str s =>
    if s = "execute_command".toList then "command_executor".toList
    else if s = "provide_info".toList then "info_provider".toList
    else "end".toList
  | _ => "end".toList

/-- The conditional-edge mapping installed on the analyzer node
(lines 808-816): `"end"` maps to the terminal `END` node. -/
def analyzer_edge_target (r : PyStr) : PyStr :=
  if r = "command_executor".toList then "command_executor".toList
  else if r = "info_provider".toList then "info_provider".toList
  else if r = "end".toList then "END".toList
  else r

/-- **C5**: when the oracle returns no response, the Planner produces a
Stop action (`action_type = "end"`) whose reasoning names the
unavailable service, with no command; the router then sends the state
machine directly to `END`, so no command is executed. -/
theorem C5_oracle_unavailable_stops (force_action is_action_request : Bool)
    (workflow_step : Nat) (original_query : PyStr) :
    (analyzer_action none force_action is_action_request workflow_step
      original_query).action_type = Json.str "end".toList ∧
    (analyzer_action none force_action is_action_request workflow_step
      original_query).reasoning =
      Json.str "API service unavailable. Please try again.".toList ∧
    pyIn "unavailable".toList
      "API service unavailable. Please try again.".toList = true ∧
    (analyzer_action none force_action is_action_request workflow_step
      original_query).command = Json.str [] ∧
    router (analyzer_action none force_action is_action_request
      workflow_step original_query).action_type = "end".toList ∧
    analyzer_edge_target (router (analyzer_action none force_action
      is_action_request workflow_step original_query).action_type) =
      "END".toList :=
  ⟨rfl, rfl, by decide, rfl, rfl, rfl⟩

/-! ### C6: where the extracted block comes from -/

lemma dropWhile_append_head_not {p : Char → Bool} {c : Char} {t : PyStr}
    (hc : p c = false) :
    ∀ (a : PyStr), (a ++ (c :: t)).dropWhile p =
      a.dropWhile p ++ (c :: t)
  | [] => by
    simp only [List.nil_append]
    exact List.dropWhile_cons_of_neg (by simp [hc])
  | x :: a' => by
    by_cases hx : p x = true
    · rw [List.cons_append, List.dropWhile_cons_of_pos hx,
        List.dropWhile_cons_of_pos hx]
      exact dropWhile_append_head_not hc a'
    · rw [List.cons_append, List.dropWhile_cons_of_neg hx,
        List.dropWhile_cons_of_neg hx, List.cons_append]

lemma rdropWhile_append_last_not {p : Char → Bool} {a : PyStr} {c : Char}
    (hlast : a.getLast? = some c) (hc : p c = false) (b : PyStr) :
    List.rdropWhile p (a ++ b) = a ++ List.rdropWhile p b := by
  obtain ⟨t, hrev⟩ : ∃ t, a.reverse = c :: t := by
    cases hr : a.reverse with
    | nil =>
      rw [List.reverse_eq_nil_iff] at hr
      subst hr
      simp at hlast
    | cons x t =>
      have hx : a.getLast? = some x := by
        rw [← List.head?_reverse, hr]
        rfl
      rw [hlast] at hx
      obtain rfl : c = x := Option.some.inj hx
      exact ⟨t, rfl⟩
  unfold List.rdropWhile
  rw [List.reverse_append, hrev, dropWhile_append_head_not hc b.reverse,
    List.reverse_append, List.reverse_cons]
  congr 1
  rw [← List.reverse_cons, ← hrev, List.reverse_reverse]

lemma firstIdxFrom_append_of_all_false {p : Char → Bool} :
    ∀ (a b : PyStr), (∀ c ∈ a, p c = false) →
    firstIdxFrom p (a ++ b) =
      (firstIdxFrom p b).map (fun i => a.length + i)
  | [], b, _ => by
    cases hfb : firstIdxFrom p b <;> simp [hfb]
  | c :: a', b, h => by
    have hc := h c (List.mem_cons_self _ _)
    have h' : ∀ x ∈ a', p x = false :=
      fun x hx => h x (List.mem_cons_of_mem _ hx)
    rw [List.cons_append]
    show (if p c = true then some 0
      else (firstIdxFrom p (a' ++ b)).map (fun i => i + 1)) = _
    rw [if_neg (by rw [hc]; exact Bool.false_ne_true),
      firstIdxFrom_append_of_all_false a' b h']
    cases hfb : firstIdxFrom p b with
    | none => rfl
    | some i =>
      show some (a'.length + i + 1) = some ((c :: a').length + i)
      rw [List.length_cons]
      congr 1
      omega

/-- The strip of `pre ++ js ++ post` when `js` starts and ends with a
non-whitespace character: the whitespace is removed from the outer ends
only. -/
lemma pyStrip_embedded {pre post : PyStr} {js : PyStr} {jt : PyStr}
    (hjs : js = '\x7b' :: jt) (hlast : js.getLast? = some '\x7d') :
    pyStrip (pre ++ js ++ post) =
      pre.dropWhile isPySpace ++ js ++ List.rdropWhile isPySpace post := by
  have hl : (pre.dropWhile isPySpace ++ js).getLast? = some '\x7d' := by
    rw [List.getLast?_append_of_ne_nil _ (by rw [hjs]; simp)]
    exact hlast
  unfold pyStrip
  rw [List.append_assoc, hjs, List.cons_append,
    dropWhile_append_head_not (p := isPySpace) (by decide) pre,
    ← List.cons_append, ← hjs, ← List.append_assoc,
    rdropWhile_append_last_not hl (by decide) post, List.append_assoc]

/-- `re.search(r'\x7b.*\x7d', ...)` on prose with a single brace-delimited
block grabs exactly that block. -/
lemma brace_search_embedded {pre post js jt : PyStr}
    (hjs : js = '\x7b' :: jt) (hlast : js.getLast? = some '\x7d')
    (hlen : 2 ≤ js.length)
    (hpre1 : ∀ c ∈ pre, c ≠ '\x7b') (hpre2 : ∀ c ∈ pre, c ≠ '\x7d')
    (hpost1 : ∀ c ∈ post, c ≠ '\x7b') (hpost2 : ∀ c ∈ post, c ≠ '\x7d') :
    brace_search (pre ++ js ++ post) = some js := by
  obtain ⟨jrt, hjrev⟩ : ∃ t, js.reverse = '\x7d' :: t := by
    cases hr : js.reverse with
    | nil =>
      rw [List.reverse_eq_nil_iff] at hr
      rw [hr] at hjs
      exact absurd hjs (by simp)
    | cons x t =>
      have hx : js.getLast? = some x := by
        rw [← List.head?_reverse, hr]
        rfl
      rw [hlast] at hx
      exact ⟨t, by rw [Option.some.injEq] at hx; rw [← hx]⟩
  have hopen : ∀ x : PyStr,
      firstIdxFrom (fun c => c = '\x7b') ('\x7b' :: x) = some 0 :=
    fun x => rfl
  have hclose : ∀ x : PyStr,
      firstIdxFrom (fun c => c = '\x7d') ('\x7d' :: x) = some 0 :=
    fun x => rfl
  have h1 : firstIdxFrom (fun c => c = '\x7b') (pre ++ js ++ post) =
      some pre.length := by
    rw [List.append_assoc,
      firstIdxFrom_append_of_all_false pre (js ++ post)
        (fun c hc => by simp [hpre1 c hc]), hjs, List.cons_append,
      hopen]
    show some (pre.length + 0) = some pre.length
    rw [Nat.add_zero]
  have h2 : lastIdxOf (fun c => c = '\x7d') (pre ++ js ++ post) =
      some (pre.length + js.length - 1) := by
    unfold lastIdxOf
    rw [List.append_assoc, List.reverse_append, List.reverse_append,
      List.append_assoc,
      firstIdxFrom_append_of_all_false post.reverse
        (js.reverse ++ pre.reverse)
        (fun c hc => by simp [hpost2 c (List.mem_reverse.mp hc)]),
      hjrev, List.cons_append, hclose]
    show some ((pre ++ (js ++ post)).length - 1 -
      (post.reverse.length + 0)) = some (pre.length + js.length - 1)
    rw [Nat.add_zero, List.length_append, List.length_append,
      List.length_reverse]
    congr 1
    have hj1 : 1 ≤ js.length := le_trans (by omega) hlen
    omega
  unfold brace_search
  rw [h1, h2]
  show (if pre.length < pre.length + js.length - 1 then
    some ((((pre ++ js ++ post)).drop pre.length).take
      (pre.length + js.length - 1 - pre.length + 1)) else none) = some js
  rw [if_pos (by omega)]
  rw [List.append_assoc, List.drop_left]
  have harith : pre.length + js.length - 1 - pre.length + 1 = js.length := by
    omega
  rw [harith, List.take_left]

set_option maxRecDepth 20000 in
/-- **C6 counterexample**: an oracle reply with a well-formed JSON block
embedded in prose, missing the `verification_commands` field.  The
Planner fills the default `["status"]` — not the empty command list the
claim states. -/
theorem C6_counterexample_default_probes :
    (analyzer_action (some ("Sure! Here is the plan: \x7b\"action_type\": \"execute_command\", \"command\": \"status\", \"reasoning\": \"check repo\", \"expected_outcome\": \"shows status\"\x7d Good luck.".toList))
      false false 1 []).verification_commands =
      Json.arr [Json.str "status".toList] ∧
    Json.arr [Json.str "status".toList] ≠ Json.arr ([] : List Json) := by
  constructor
  · rfl
  · simp

/-- **C6 (amended)**: for an oracle reply consisting of a brace-delimited
JSON object surrounded by brace-free prose, the Planner uses exactly that
object's fields and fills each missing required field with its default:
`"execute_command"`/`"provide_info"` (forced action request or not) as
the action kind, the empty command, `"Generated from response"` as
reasoning, the empty expected outcome, and `["status"]` as the
verification probes. -/
theorem C6_block_extraction_and_defaults (pre post js jt : PyStr)
    (fields : List (PyStr × Json)) (force_action is_action_request : Bool)
    (workflow_step : Nat) (original_query : PyStr)
    (hjs : js = '\x7b' :: jt) (hlast : js.getLast? = some '\x7d')
    (hlen : 2 ≤ js.length)
    (hpre1 : ∀ c ∈ pre, c ≠ '\x7b') (hpre2 : ∀ c ∈ pre, c ≠ '\x7d')
    (hpost1 : ∀ c ∈ post, c ≠ '\x7b') (hpost2 : ∀ c ∈ post, c ≠ '\x7d')
    (hparse : json_loads js = some (Json.obj fields)) :
    analyzer_action (some (pre ++ js ++ post)) force_action
      is_action_request workflow_step original_query =
      action_from_fields fields force_action ∧
    (jsonGet fields "action_type".toList = none →
      (action_from_fields fields force_action).action_type =
        Json.str (if force_action then "execute_command".toList
          else "provide_info".toList)) ∧
    (jsonGet fields "command".toList = none →
      (action_from_fields fields force_action).command = Json.str []) ∧
    (jsonGet fields "reasoning".toList = none →
      (action_from_fields fields force_action).reasoning =
        Json.str "Generated from response".toList) ∧
    (jsonGet fields "expected_outcome".toList = none →
      (action_from_fields fields force_action).expected_outcome =
        Json.str []) ∧
    (jsonGet fields "verification_commands".toList = none →
      (action_from_fields fields force_action).verification_commands =
        Json.arr [Json.str "status".toList]) := by
  have hpre1b : ∀ c ∈ pre.dropWhile isPySpace, c ≠ '\x7b' :=
    fun c hc => hpre1 c ((List.dropWhile_suffix _).subset hc)
  have hpre2b : ∀ c ∈ pre.dropWhile isPySpace, c ≠ '\x7d' :=
    fun c hc => hpre2 c ((List.dropWhile_suffix _).subset hc)
  have hpost1b : ∀ c ∈ List.rdropWhile isPySpace post, c ≠ '\x7b' :=
    fun c hc => hpost1 c ((List.rdropWhile_prefix _ _).subset hc)
  have hpost2b : ∀ c ∈ List.rdropWhile isPySpace post, c ≠ '\x7d' :=
    fun c hc => hpost2 c ((List.rdropWhile_prefix _ _).subset hc)
  have hbs : brace_search (pyStrip (pre ++ js ++ post)) = some js := by
    rw [pyStrip_embedded hjs hlast]
    exact brace_search_embedded hjs hlast hlen hpre1b hpre2b hpost1b hpost2b
  refine ⟨?_, ?_, ?_, ?_, ?_, ?_⟩
  · show (match brace_search (pyStrip (pre ++ js ++ post)) with
      | some json_str =>
        analyzer_loads json_str (pre ++ js ++ post) force_action
          is_action_request workflow_step original_query
      | none =>
        fallback_action (pre ++ js ++ post) force_action is_action_request
          workflow_step original_query) =
      action_from_fields fields force_action
    rw [hbs]
    show analyzer_loads js (pre ++ js ++ post) force_action
      is_action_request workflow_step original_query =
      action_from_fields fields force_action
    unfold analyzer_loads
    rw [hparse]
  · intro h
    unfold action_from_fields
    rw [h]
    rfl
  · intro h
    unfold action_from_fields
    rw [h]
    rfl
  · intro h
    unfold action_from_fields
    rw [h]
    rfl
  · intro h
    unfold action_from_fields
    rw [h]
    rfl
  · intro h
    unfold action_from_fields
    rw [h]
    rfl

set_option maxRecDepth 20000 in
/-- C6 amended-claim witness at a concrete reply. -/
theorem C6_block_extraction_witness :
    analyzer_action (some ("Plan: \x7b\"command\": \"status\"\x7d ok".toList))
      false false 1 [] =
      action_from_fields [("command".toList, Json.str "status".toList)]
        false :=
  (C6_block_extraction_and_defaults "Plan: ".toList " ok".toList
    "\x7b\"command\": \"status\"\x7d".toList
    "\"command\": \"status\"\x7d".toList
    [("command".toList, Json.str "status".toList)] false false 1 []
    rfl rfl (by decide) (by decide) (by decide) (by decide) (by decide)
    rfl).1

end GitAgent
